import Mathlib

/-!
Shallow embedding of the spin deploy command (src/commands/deploy.rs) and
proofs about it.  External collaborators (the hippo control-plane wire
client, the bindle artifact-store client, serde_json, the sha2 digest, the
url crate and the route-pattern evaluator) are represented by their results,
passed in as explicit inputs, matching the capability boundaries described
in the specification.  Machine strings are modelled by Lean String values;
byte streams by List Nat.
-/

deriving instance DecidableEq for Except

namespace SpinDeploy

/-- Opaque identifier assigned by the control plane (uuid::Uuid in the
source).  Its to_string form is the wrapped value. -/
structure Uuid where
  val : String
deriving DecidableEq, Repr

/-- Bindle artifact identifier, a pair of name and version string
(bindle::Id in the source).  version corresponds to version_string(). -/
structure BindleId where
  name : String
  version : String
deriving DecidableEq, Repr

/-- Display form of a bindle Id, name slash version. -/
def bindleIdStr (b : BindleId) : String :=
  b.name ++ "/" ++ b.version

/-- One entry of the list returned by Client::list_apps. -/
structure AppItem where
  name : String
  id : Uuid
deriving DecidableEq, Repr

/-- One entry of the list returned by Client::list_revisions.  The
app_id field records which app owns the revision; the deploy code never
reads it. -/
structure RevisionItem where
  id : Uuid
  revision_number : String
  app_id : Uuid
deriving DecidableEq, Repr

/-- One entry of the list returned by Client::list_channels. -/
structure ChannelItem where
  name : String
  id : Uuid
deriving DecidableEq, Repr

/-- The channel object returned by Client::get_channel_by_id; only the
domain field is consumed by the deploy code. -/
structure Channel where
  domain : String
deriving DecidableEq, Repr

/-- hippo_openapi::models::ChannelRevisionSelectionStrategy. -/
inductive ChannelRevisionSelectionStrategy where
  | UseRangeRule
  | UseSpecifiedRevision
deriving DecidableEq, Repr

/-- DeployCommand::get_app_id, lines 282 to 289: list all apps, find the
one whose name matches, and fail with a message naming the app when no
entry matches.  The result of the external Client::list_apps call is the
first input. -/
def get_app_id (list_apps_result : Except String (List AppItem))
    (name : String) : Except String Uuid :=
  match list_apps_result with
  | Except.error e => Except.error e
  | Except.ok apps =>
    match apps.find? (fun x => x.name == name) with
    | some a => Except.ok a.id
    | none => Except.error ("No app with name: " ++ name)

/-- DeployCommand::get_revision_id, lines 291 to 300: list all revisions,
take the first whose revision_number equals the bindle version string.
The result of the external Client::list_revisions call is the first
input. -/
def get_revision_id (list_revisions_result : Except String (List RevisionItem))
    (bindle_version : String) : Except String Uuid :=
  match list_revisions_result with
  | Except.error e => Except.error e
  | Except.ok revisions =>
    match revisions.find? (fun x => x.revision_number == bindle_version) with
    | some r => Except.ok r.id
    | none => Except.error ("No revision with version " ++ bindle_version)

/-- DeployCommand::get_channel_id, lines 302 to 309: list all channels,
find the one whose name matches. -/
def get_channel_id (list_channels_result : Except String (List ChannelItem))
    (name : String) : Except String Uuid :=
  match list_channels_result with
  | Except.error e => Except.error e
  | Except.ok channels =>
    match channels.find? (fun x => x.name == name) with
    | some c => Except.ok c.id
    | none => Except.error ("No channel with name: " ++ name)

/-- Results of the control-plane calls the reconciler may issue.  Each
call is issued at most once per run, so one result per call suffices. -/
structure HippoEnv where
  list_apps : Except String (List AppItem)
  add_revision : Except String Unit
  list_channels : Except String (List ChannelItem)
  remove_channel : Except String Unit
  list_revisions : Except String (List RevisionItem)
  add_app : Except String Uuid
  add_channel : Except String Uuid
  get_channel_by_id : Except String Channel

/-- A control-plane call as issued by the reconciler, with its arguments
as they appear at the call sites in run (lines 166 to 224). -/
inductive HippoCall where
  | listApps
  | addRevision (appName version : String)
  | listChannels
  | removeChannel (channelId : Uuid)
  | listRevisions
  | addApp (name storageId : String)
  | addChannel (appId : Uuid) (channelName : String) (domain : Option String)
      (strategy : ChannelRevisionSelectionStrategy) (rangeRule : Option String)
      (activeRevisionId : Option Uuid) (certId : Option String)
  | getChannelById (channelId : Uuid)
deriving DecidableEq, Repr

/-- Successful outcome of the reconciler: the resolved app id, the created
channel id and the domain read back from the created channel. -/
structure ReconcileOk where
  app_id : Uuid
  channel_id : Uuid
  domain : String
deriving DecidableEq, Repr

/-- Channel name constant SPIN_DEPLOY_CHANNEL_NAME (line 21). -/
def SPIN_DEPLOY_CHANNEL_NAME : String := "spin-deploy"

/-- Tail of run (lines 204 to 224): create the spin-deploy channel with
the strategy, range rule and active revision chosen by the branch, then
read the channel back by id to learn its domain.  Returns the calls
issued (appended to the calls already made) and the outcome. -/
def finishChannel (env : HippoEnv) (pre : List HippoCall) (app_id : Uuid)
    (strategy : ChannelRevisionSelectionStrategy) (range_rule : Option String)
    (active_revision_id : Option Uuid) :
    List HippoCall × Except String ReconcileOk :=
  let trace := pre ++ [HippoCall.addChannel app_id SPIN_DEPLOY_CHANNEL_NAME
    none strategy range_rule active_revision_id none]
  match env.add_channel with
  | Except.error e => (trace, Except.error ("Problem creating a channel in Hippo: " ++ e))
  | Except.ok channel_id =>
    let trace2 := trace ++ [HippoCall.getChannelById channel_id]
    match env.get_channel_by_id with
    | Except.error e => (trace2, Except.error ("Problem getting channel by id: " ++ e))
    | Except.ok channel => (trace2, Except.ok ⟨app_id, channel_id, channel.domain⟩)

/-- The create-or-update section of DeployCommand::run (lines 166 to 224),
with the sequence of control-plane calls made explicit.  name is the
bindle name, version the bindle version string.  The match on the result
of get_app_id reproduces lines 173 to 202: on Ok the update path runs
(add_revision, channel lookup and delete, revision-id lookup, pin to the
specified revision); on Err of any kind the create path runs (add_app,
range rule set to the version string). -/
def runReconcile (env : HippoEnv) (name version : String) :
    List HippoCall × Except String ReconcileOk :=
  match get_app_id env.list_apps name with
  | Except.ok app_id =>
    let trace := [HippoCall.listApps, HippoCall.addRevision name version]
    match env.add_revision with
    | Except.error e => (trace, Except.error e)
    | Except.ok _ =>
      let trace2 := trace ++ [HippoCall.listChannels]
      match get_channel_id env.list_channels SPIN_DEPLOY_CHANNEL_NAME with
      | Except.error e => (trace2, Except.error e)
      | Except.ok existing_channel_id =>
        let trace3 := trace2 ++ [HippoCall.removeChannel existing_channel_id]
        match env.remove_channel with
        | Except.error e => (trace3, Except.error e)
        | Except.ok _ =>
          let trace4 := trace3 ++ [HippoCall.listRevisions]
          match get_revision_id env.list_revisions version with
          | Except.error e => (trace4, Except.error e)
          | Except.ok rid =>
            finishChannel env trace4 app_id
              ChannelRevisionSelectionStrategy.UseSpecifiedRevision none (some rid)
  | Except.error _ =>
    let trace := [HippoCall.listApps, HippoCall.addApp name name]
    match env.add_app with
    | Except.error e => (trace, Except.error ("Unable to create Hippo app: " ++ e))
    | Except.ok app_id =>
      finishChannel env trace app_id
        ChannelRevisionSelectionStrategy.UseRangeRule (some version) none

/-! String helpers modelling the Rust std string operations the deploy
code uses: substring containment (str::contains with a literal pattern),
suffix test (str::ends_with) and global replacement (str::replace).  All
three are given structurally recursive definitions over the character
list so that concrete instances evaluate in the kernel. -/

/-- True when pat occurs as a contiguous sublist of l (Rust
str::contains on the underlying character sequences). -/
def subListAt (pat : List Char) : List Char → Bool
  | [] => pat.isPrefixOf ([] : List Char)
  | c :: rest => pat.isPrefixOf (c :: rest) || subListAt pat rest

/-- Rust str::contains with a literal pattern. -/
def hasSubstring (s pat : String) : Bool :=
  subListAt pat.toList s.toList

/-- Rust str::ends_with with a literal pattern. -/
def strEndsWith (s suffix : String) : Bool :=
  suffix.toList.isSuffixOf s.toList

/-- Replacement of every non-overlapping occurrence of pat by rep,
scanning left to right, fuel-bounded to stay structurally recursive.
With fuel at least the length of the scanned list the fuel never runs
out, since every step consumes at least one character. -/
def replaceListFuel (pat rep : List Char) : Nat → List Char → List Char
  | 0, l => l
  | _ + 1, [] => []
  | fuel + 1, c :: rest =>
    if pat.isPrefixOf (c :: rest) && !pat.isEmpty then
      rep ++ replaceListFuel pat rep fuel ((c :: rest).drop pat.length)
    else
      c :: replaceListFuel pat rep fuel rest

/-- Rust str::replace with a literal pattern. -/
def strReplace (s pat rep : String) : String :=
  String.mk (replaceListFuel pat.toList rep.toList s.toList.length s.toList)

/-! The artifact publisher, DeployCommand::create_and_push_bindle. -/

/-- An anyhow error value: the stack of context frames added by
with_context (most recent first) above the root error message. -/
structure AnyErr where
  ctxs : List String
  root : String
deriving DecidableEq, Repr

/-- anyhow Context::with_context: push a context frame onto an error. -/
def withContext (c : String) (e : AnyErr) : AnyErr :=
  { e with ctxs := c :: e.ctxs }

/-- DeployCommand::create_and_push_bindle, lines 311 to 365, from the
point where the bindle has been staged.  The external steps (app_dir,
expand_manifest, write, push_all against the bindle server) are
collaborators; their observable data are the staged bindle id, the
staging directory path dest_dir and the outcome of the push, all passed
in.  publish_result carries the display string of the push error when the
push failed.  Lines 340 to 362 are reproduced: an error whose display
contains the literal "already exists on the server" is benign when the
redeploy flag is set (the staged bindle id is returned as success) and
otherwise becomes a fresh error suggesting the redeploy flag; any other
error is returned with a context frame naming the bindle id and the
bindle server url. -/
def create_and_push_bindle (redeploy : Bool) (bindle_server_url : String)
    (dest_dir : String) (bindle_id : BindleId)
    (publish_result : Except String Unit) : Except AnyErr BindleId :=
  match publish_result with
  | Except.ok _ => Except.ok bindle_id
  | Except.error publish_err =>
    if hasSubstring publish_err "already exists on the server" then
      if redeploy then
        Except.ok bindle_id
      else
        Except.error ⟨[], "Failed to push bindle to server.\n" ++ publish_err ++
          "\nTry using the --deploy-existing-bindle flag"⟩
    else
      Except.error (withContext
        ("Failed to push bindle " ++ bindleIdStr bindle_id ++ " to server " ++
          bindle_server_url)
        ⟨[], publish_err⟩)

/-! Login error handling: format_login_error and the login arm of run. -/

/-- The structured shape expected of a hippo login failure body
(struct LoginHippoError, lines 406 to 410). -/
structure LoginHippoError where
  title : String
  detail : String
deriving DecidableEq, Repr

/-- The token info returned by Client::login; run reads the optional
token field. -/
structure TokenInfo where
  token : Option String
deriving DecidableEq, Repr

/-- format_login_error, lines 412 to 422.  The serde_json parse of the
error display string is an external call; its outcome is the input.  On
parse failure the question-mark operator returns the parse error itself;
on success the detail field is rendered, with every ": " replaced by "."
when the detail ends in ": ". -/
def format_login_error (parse_result : Except String LoginHippoError) :
    Except String String :=
  match parse_result with
  | Except.error e => Except.error e
  | Except.ok err =>
    if strEndsWith err.detail ": " then
      Except.ok ("Problem logging into Hippo: " ++ strReplace err.detail ": " ".")
    else
      Except.ok ("Problem logging into Hippo: " ++ err.detail)

/-- The login arm of run, lines 145 to 158: on success the token is
unwrapped with empty-string default; on failure run bails with
format_login_error of the error, where the question mark inside the bail
argument propagates a parse failure in place of the original error.
parse gives the serde_json deserialization outcome for a given error
display string. -/
def loginToken (login_result : Except String TokenInfo)
    (parse : String → Except String LoginHippoError) : Except String String :=
  match login_result with
  | Except.ok token_info => Except.ok (token_info.token.getD "")
  | Except.error err =>
    match format_login_error (parse err) with
    | Except.ok msg => Except.error msg
    | Except.error e => Except.error e

/-! The manifest data model (spin_loader::local::config) restricted to the
fields the deploy code reads. -/

/-- config::RawModuleSource: a component source is either a local file
reference or a pre-existing remote bindle artifact. -/
inductive RawModuleSource where
  | fileReference (path : String)
  | bindle (bindleId : String)
deriving DecidableEq, Repr

/-- The wasm section of a raw component: optional include globs and
optional exclude globs for assets. -/
structure RawWasmConfig where
  files : Option (List String)
  exclude_files : Option (List String)
deriving DecidableEq, Repr

/-- spin_manifest::TriggerConfig at component level: the deploy code only
distinguishes the http case, from which it reads the route. -/
inductive TriggerConfig where
  | http (route : String)
  | other
deriving DecidableEq, Repr

/-- The application-level trigger (cfg.info.trigger): the conversion
HttpTriggerConfiguration::try_from succeeds exactly on the http case and
yields the base path. -/
inductive ApplicationTrigger where
  | http (base : String)
  | other
deriving DecidableEq, Repr

/-- A raw component manifest with the fields the deploy code reads:
id, source, wasm file globs, trigger and optional description. -/
structure RawComponentManifest where
  id : String
  source : RawModuleSource
  wasm : RawWasmConfig
  trigger : TriggerConfig
  description : Option String
deriving DecidableEq, Repr

/-- A raw application manifest: the application trigger and the component
list. -/
structure RawAppManifest where
  trigger : ApplicationTrigger
  components : List RawComponentManifest
deriving DecidableEq, Repr

/-! The build identifier computer, DeployCommand::compute_buildinfo.  The
local filesystem is modelled as an association list from paths to byte
contents, in an arbitrary iteration order; reading a file is lookup of
the first entry with the given path. -/

/-- The local filesystem: path to contents, in iteration order. -/
abbrev FileSystem := List (String × List Nat)

/-- Paths of a filesystem are pairwise distinct. -/
abbrev PathsNodup (fs : FileSystem) : Prop :=
  fs.Pairwise (fun a b => a.1 ≠ b.1)

/-- Reading a file: first entry with the given path. -/
def fsLookup (fs : FileSystem) (path : String) : Option (List Nat) :=
  match fs.find? (fun e => e.1 == path) with
  | some e => some e.2
  | none => none

/-- Path join, modelling PathBuf::join for the relative paths that occur
here. -/
def joinPath (dir p : String) : String :=
  dir ++ "/" ++ p

/-- Modelled from the spec: glob matching inside asset resolution
(spin_loader::local::assets, an external collaborator whose pattern
syntax the spec leaves open).  A pattern matches a path when the pattern
joined to the source directory equals the path, or when it is the
match-all pattern and the path lies under the source directory. -/
def globMatches (sourceDir pat path : String) : Bool :=
  joinPath sourceDir pat == path ||
    (pat == "**/*" && String.isPrefixOf (sourceDir ++ "/") path)

/-- Some pattern of the set matches the path. -/
def matchesAny (pats : List String) (sourceDir path : String) : Bool :=
  pats.any (fun pat => globMatches sourceDir pat path)

/-- Comparison of filesystem entries by path. -/
def pathLe (a b : String × List Nat) : Prop :=
  a.1 ≤ b.1

instance : DecidableRel pathLe :=
  fun a b => inferInstanceAs (Decidable (a.1 ≤ b.1))

instance : IsTotal (String × List Nat) pathLe :=
  ⟨fun a b => le_total a.1 b.1⟩

instance : IsTrans (String × List Nat) pathLe :=
  ⟨fun _ _ _ hab hbc => le_trans hab hbc⟩

/-- Modelled from the spec: assets::collect resolves the include and
exclude glob sets against the source directory and, per the spec,
"resolve the file set deterministically (stable order)"; the stable
order is modelled as sorting the matched entries by path.  The returned
file mappings carry the file contents directly. -/
def collect (files exclude_files : List String) (sourceDir : String)
    (fs : FileSystem) : List (String × List Nat) :=
  List.insertionSort pathLe
    (fs.filter (fun e => matchesAny files sourceDir e.1 &&
      !matchesAny exclude_files sourceDir e.1))

/-- The contribution of one component to the digest input, following the
loop body of compute_buildinfo (lines 248 to 268): a file-reference
source streams the bytes of the referenced file (resolved against the
manifest parent directory) and a bindle source streams nothing; then, if
the component declares asset globs, the bytes of every collected asset
file are streamed in collected order.  crate::app_dir, defined outside
the provided source, resolves to the parent directory of the manifest
file, the same directory as app_folder. -/
def componentInput (app_folder : String) (fs : FileSystem)
    (x : RawComponentManifest) : Except String (List Nat) :=
  let sourceBytes : Except String (List Nat) :=
    match x.source with
    | RawModuleSource.fileReference p =>
      let full_path := joinPath app_folder p
      match fsLookup fs full_path with
      | some bytes => Except.ok bytes
      | none => Except.error ("Cannot open file " ++ full_path)
    | RawModuleSource.bindle _ => Except.ok []
  match sourceBytes with
  | Except.error e => Except.error e
  | Except.ok sb =>
    match x.wasm.files with
    | none => Except.ok sb
    | some files =>
      let exclude_files := x.wasm.exclude_files.getD []
      let fm := collect files exclude_files app_folder fs
      Except.ok (sb ++ (fm.map Prod.snd).flatten)

/-- The concatenated contributions of all components, in component
order. -/
def componentsInput (app_folder : String) (fs : FileSystem) :
    List RawComponentManifest → Except String (List Nat)
  | [] => Except.ok []
  | x :: rest =>
    match componentInput app_folder fs x with
    | Except.error e => Except.error e
    | Except.ok h =>
      match componentsInput app_folder fs rest with
      | Except.error e => Except.error e
      | Except.ok t => Except.ok (h ++ t)

/-- The full byte stream fed to the sha256 digest (lines 248 to 271): all
component contributions first, then the bytes of the manifest file itself
last. -/
def hashInput (appPath app_folder : String) (fs : FileSystem)
    (cfg : RawAppManifest) : Except String (List Nat) :=
  match componentsInput app_folder fs cfg.components with
  | Except.error e => Except.error e
  | Except.ok comp =>
    match fsLookup fs appPath with
    | some manifestBytes => Except.ok (comp ++ manifestBytes)
    | none => Except.error ("Cannot open file " ++ appPath)

/-- The sixteen lowercase hex digits. -/
def hexChars : List Char :=
  "0123456789abcdef".toList

/-- The lowercase hex digit of a value taken mod 16. -/
def hexDigitChar (n : Nat) : Char :=
  hexChars.getD (n % 16) '0'

/-- Lowercase hex rendering of a byte list, two digits per byte, as the
format specifier x renders a sha2 digest. -/
def hexCharList (bs : List Nat) : List Char :=
  (bs.map (fun b => [hexDigitChar (b / 16), hexDigitChar b])).flatten

/-- Lines 273 to 274: the digest is hex-encoded, prefixed with the fixed
marker q, and the resulting string is truncated to length 8. -/
def finalDigestString (digest : List Nat) : String :=
  String.mk (('q' :: hexCharList digest).take 8)

/-- A character allowed in a semver build-metadata identifier: ascii
alphanumeric or hyphen. -/
def isBuildMetadataChar (c : Char) : Bool :=
  c.isAlphanum || c == '-'

/-- Split a character list at every dot. -/
def splitDots : List Char → List (List Char)
  | [] => [[]]
  | c :: rest =>
    let r := splitDots rest
    if c == '.' then [] :: r
    else (c :: r.headI) :: r.tail

/-- Modelled from the spec: semver build-metadata syntax (the semver
crate is an external collaborator): one or more dot-separated identifiers,
each non-empty and made of ascii alphanumerics and hyphens. -/
def validBuildMetadata (s : String) : Bool :=
  (splitDots s.toList).all (fun part => !part.isEmpty && part.all isBuildMetadataChar)

/-- Modelled from the spec: semver::BuildMetadata::new accepts exactly
the strings in valid build-metadata syntax. -/
def buildMetadataNew (s : String) : Option String :=
  if validBuildMetadata s then some s else none

/-- DeployCommand::compute_buildinfo, lines 239 to 280: stream the
component files and then the manifest into a sha256 digest, hex-encode
with the q prefix, truncate to 8, and validate as semver build metadata,
failing with the fixed message otherwise.  The sha2 digest function is an
external collaborator, passed in as sha256, a function from the streamed
bytes to the 32 digest bytes. -/
def compute_buildinfo (sha256 : List Nat → List Nat)
    (appPath app_folder : String) (fs : FileSystem) (cfg : RawAppManifest) :
    Except String String :=
  match hashInput appPath app_folder fs cfg with
  | Except.error e => Except.error e
  | Except.ok inp =>
    let final_digest := finalDigestString (sha256 inp)
    match buildMetadataNew final_digest with
    | some bm => Except.ok bm
    | none => Except.error "Could not compute build info"

/-! The route presenter, print_available_routes and the output tail of
run (lines 217 to 234). -/

/-- Longest proper text before the first occurrence of sep, none when sep
does not occur. -/
def textBefore (sep : List Char) : List Char → Option (List Char)
  | [] => none
  | c :: rest =>
    if sep.isPrefixOf (c :: rest) then some []
    else
      match textBefore sep rest with
      | some pre => some (c :: pre)
      | none => none

/-- Modelled from the spec: the scheme heuristic of the route presenter.
url::Url::parse is an external collaborator; per the spec the
control-plane url scheme is reused for display, "defaulting to
unencrypted if unparseable".  Parsing is modelled as taking the nonempty
text before the first :// separator. -/
def urlScheme (u : String) : Option String :=
  match textBefore "://".toList u.toList with
  | some [] => none
  | some pre => some (String.mk pre)
  | none => none

/-- Modelled from the spec: route-pattern evaluation
(spin_http_engine::routes::RoutePattern, an external collaborator) is "a
pure function from base path + pattern to a display string", modelled as
the base path with any trailing slash removed, followed by the route
pattern. -/
def routePatternFrom (base route : String) : String :=
  (if strEndsWith base "/" then String.mk base.toList.dropLast else base) ++ route

/-- The lines printed for one component by the loop of
print_available_routes (lines 389 to 403): components with an http
trigger yield the route line, then the optional description line;
other components yield nothing. -/
def routeLines (address base hippo_url : String)
    (component : RawComponentManifest) : List String :=
  match component.trigger with
  | TriggerConfig.http route =>
    let scheme := (urlScheme hippo_url).getD "http"
    ("  " ++ component.id ++ ": " ++ scheme ++ "://" ++ address ++
      routePatternFrom base route) ::
      (match component.description with
       | some d => ["    " ++ d]
       | none => [])
  | TriggerConfig.other => []

/-- print_available_routes, lines 378 to 404: nothing at all for an empty
component list, otherwise the Available Routes header followed by the
per-component lines. -/
def print_available_routes (address base hippo_url : String)
    (cfg : RawAppManifest) : List String :=
  if cfg.components.isEmpty then []
  else
    "Available Routes:" ::
      (cfg.components.map (routeLines address base hippo_url)).flatten

/-- The output of the tail of run, lines 217 to 234: the deployed line,
then, when the application trigger converts to an http trigger
configuration, the available routes under its base path, and otherwise
the single bare-domain fallback line. -/
def deployOutputLines (name version domain hippo_url : String)
    (cfg : RawAppManifest) : List String :=
  ("Deployed " ++ name ++ " version " ++ version) ::
    (match cfg.trigger with
     | ApplicationTrigger.http base =>
       print_available_routes domain base hippo_url cfg
     | ApplicationTrigger.other =>
       ["Application is running at " ++ domain])

/-- Strict comparison of filesystem entries by path. -/
def pathLt (a b : String × List Nat) : Prop :=
  a.1 < b.1

instance : IsAntisymm (String × List Nat) pathLt :=
  ⟨fun _ _ h1 h2 => (lt_asymm h1 h2).elim⟩

/-- A control-plane environment in which the initial list-apps call fails
with a transport error while every later call would succeed. -/
def envTransportFail : HippoEnv :=
  { list_apps := Except.error "error sending request for url"
  , add_revision := Except.error "unreached"
  , list_channels := Except.error "unreached"
  , remove_channel := Except.error "unreached"
  , list_revisions := Except.error "unreached"
  , add_app := Except.ok ⟨"a9"⟩
  , add_channel := Except.ok ⟨"c2"⟩
  , get_channel_by_id := Except.ok ⟨"myapp.example.com"⟩ }

/-- A manifest whose application trigger is http but whose only component
has a non-http trigger. -/
def cfgNonHttpComponent : RawAppManifest :=
  { trigger := ApplicationTrigger.http "/"
  , components := [{ id := "c1", source := RawModuleSource.bindle "b"
                   , wasm := { files := none, exclude_files := none }
                   , trigger := TriggerConfig.other, description := none }] }

/-- The serde_json outcome of deserializing a body that is not valid
JSON: a parse error whose display is a position message, never the
original body text. -/
def serdeParseFail : String → Except String LoginHippoError :=
  fun _ => Except.error "expected value at line 1 column 1"

end SpinDeploy

namespace SpinDeploy

/-! General lemmas about the string helpers. -/

theorem subListAt_append_right (pat l2 l1 : List Char)
    (h : subListAt pat l2 = true) : subListAt pat (l1 ++ l2) = true := by
  induction l1 with
  | nil => simpa using h
  | cons c rest ih => simp [subListAt, ih]

theorem subListAt_self (pat : List Char) : subListAt pat pat = true := by
  cases pat with
  | nil => rfl
  | cons c rest =>
    have h : (c :: rest).isPrefixOf (c :: rest) = true :=
      List.isPrefixOf_iff_prefix.mpr (List.prefix_refl _)
    simp [subListAt, h]

theorem hasSubstring_append_right (a b pat : String)
    (h : hasSubstring b pat = true) : hasSubstring (a ++ b) pat = true := by
  unfold hasSubstring at h ⊢
  have hd : (a ++ b).toList = a.toList ++ b.toList := by
    simp [String.toList, String.data_append]
  rw [hd]
  exact subListAt_append_right _ _ _ h

theorem hasSubstring_append_self (a pat : String) :
    hasSubstring (a ++ pat) pat = true :=
  hasSubstring_append_right a pat pat (subListAt_self pat.toList)

/-! Claim theorems. -/

/-- C2: when the push of a staged artifact fails because the exact name
and version already exist on the store, then with the redeploy flag the
publish step succeeds and returns the same artifact identifier computed
for the push, and without the flag it fails with an error whose message
names the remediation flag --deploy-existing-bindle. -/
theorem push_conflict_policy (pe url dest : String) (bid : BindleId)
    (hconf : hasSubstring pe "already exists on the server" = true) :
    create_and_push_bindle true url dest bid (Except.error pe) = Except.ok bid ∧
    ∃ e, create_and_push_bindle false url dest bid (Except.error pe) = Except.error e ∧
      hasSubstring e.root "--deploy-existing-bindle" = true := by
  have h2 : create_and_push_bindle false url dest bid (Except.error pe) =
      Except.error ⟨[], "Failed to push bindle to server.\n" ++ pe ++
        "\nTry using the --deploy-existing-bindle flag"⟩ := by
    simp [create_and_push_bindle, hconf]
  refine ⟨by simp [create_and_push_bindle, hconf], ⟨_, h2, ?_⟩⟩
  exact hasSubstring_append_right _ _ _ (by decide)

/-- C2 witness: the conflict policy at a concrete push error. -/
theorem push_conflict_policy_witness :
    hasSubstring "bindle myapp/1.0.0 already exists on the server"
      "already exists on the server" = true ∧
    (create_and_push_bindle true "http://bindle.local" "/stage" ⟨"myapp", "1.0.0"⟩
      (Except.error "bindle myapp/1.0.0 already exists on the server") =
        Except.ok ⟨"myapp", "1.0.0"⟩ ∧
    ∃ e, create_and_push_bindle false "http://bindle.local" "/stage" ⟨"myapp", "1.0.0"⟩
      (Except.error "bindle myapp/1.0.0 already exists on the server") = Except.error e ∧
      hasSubstring e.root "--deploy-existing-bindle" = true) :=
  ⟨by decide,
    push_conflict_policy "bindle myapp/1.0.0 already exists on the server"
      "http://bindle.local" "/stage" ⟨"myapp", "1.0.0"⟩ (by decide)⟩

/-- C9 counterexample: a non-conflict push failure is wrapped with a
context frame naming the bindle id and the server url; at this concrete
input with staging directory /mystaging, the context frame does not
mention the staging directory at all, refuting the claim that the
context names it. -/
theorem push_other_failure_counterexample :
    create_and_push_bindle false "http://bindle.local" "/mystaging"
      ⟨"myapp", "1.0.0"⟩ (Except.error "connection refused") =
      Except.error ⟨["Failed to push bindle myapp/1.0.0 to server http://bindle.local"],
        "connection refused"⟩ ∧
    hasSubstring "Failed to push bindle myapp/1.0.0 to server http://bindle.local"
      "/mystaging" = false := by
  constructor
  · rfl
  · decide

/-- C9 as amended: any push failure other than the already-exists
conflict is propagated with its root unchanged, wrapped with exactly one
context frame naming the pushed bindle identifier and the target bindle
server; the staging directory is not part of the context. -/
theorem push_other_failure_context (r : Bool) (pe url dest : String)
    (bid : BindleId)
    (h : hasSubstring pe "already exists on the server" = false) :
    create_and_push_bindle r url dest bid (Except.error pe) =
      Except.error ⟨["Failed to push bindle " ++ bindleIdStr bid ++
        " to server " ++ url], pe⟩ := by
  simp [create_and_push_bindle, h, withContext]

/-- C9 witness: the wrapped error at a concrete non-conflict failure. -/
theorem push_other_failure_context_witness :
    hasSubstring "tls handshake failed" "already exists on the server" = false ∧
    create_and_push_bindle true "https://bindle.example" "/stage"
      ⟨"app2", "0.3.0"⟩ (Except.error "tls handshake failed") =
      Except.error ⟨["Failed to push bindle " ++ bindleIdStr ⟨"app2", "0.3.0"⟩ ++
        " to server " ++ "https://bindle.example"], "tls handshake failed"⟩ :=
  ⟨by decide,
    push_other_failure_context true "tls handshake failed" "https://bindle.example"
      "/stage" ⟨"app2", "0.3.0"⟩ (by decide)⟩

/-- C10: the revision id pinned on the update path comes from scanning
the full revision list and taking the first revision whose version
string equals the bindle version, with no filtering by owning app: when
a revision of a different app with the same version string sits ahead of
the matching one, its id is the one returned. -/
theorem revision_lookup_first_match (l1 l2 l3 : List RevisionItem)
    (r1 r2 : RevisionItem) (v : String)
    (h1 : ∀ x ∈ l1, x.revision_number ≠ v)
    (h2 : r1.revision_number = v) (h3 : r2.revision_number = v)
    (h4 : r1.app_id ≠ r2.app_id) :
    get_revision_id (Except.ok (l1 ++ r1 :: (l2 ++ r2 :: l3))) v =
      Except.ok r1.id := by
  unfold get_revision_id
  induction l1 with
  | nil =>
    simp [List.find?_cons_of_pos, h2]
  | cons x rest ih =>
    have hx : (x.revision_number == v) = false :=
      beq_eq_false_iff_ne.mpr (h1 x (List.mem_cons_self x rest))
    have ih2 := ih (fun y hy => h1 y (List.mem_cons_of_mem x hy))
    simpa [List.find?_cons_of_neg, hx] using ih2

/-- C10 witness: a revision list in which a different app owns an
earlier revision with the same version string. -/
theorem revision_lookup_first_match_witness :
    (∀ x ∈ ([] : List RevisionItem), x.revision_number ≠ "1.0.0+qabc") ∧
    get_revision_id (Except.ok ([] ++ ⟨⟨"rev-other"⟩, "1.0.0+qabc", ⟨"other-app"⟩⟩ ::
      ([] ++ ⟨⟨"rev-mine"⟩, "1.0.0+qabc", ⟨"my-app"⟩⟩ :: []))) "1.0.0+qabc" =
      Except.ok ⟨"rev-other"⟩ :=
  ⟨by simp,
    revision_lookup_first_match [] [] [] ⟨⟨"rev-other"⟩, "1.0.0+qabc", ⟨"other-app"⟩⟩
      ⟨⟨"rev-mine"⟩, "1.0.0+qabc", ⟨"my-app"⟩⟩ "1.0.0+qabc"
      (by simp) rfl rfl (by decide)⟩

/-- C8 counterexample: an auth failure whose body does not match the
structured shape is not surfaced raw: at this concrete input the raw
error display is "connection refused", yet the surfaced error is the
parse error produced while reformatting, so the claim that the raw error
propagates unchanged fails. -/
theorem login_error_counterexample :
    loginToken (Except.error "connection refused") serdeParseFail =
      Except.error "expected value at line 1 column 1" ∧
    "expected value at line 1 column 1" ≠ "connection refused" := by
  constructor
  · rfl
  · decide

/-- C8 as amended: a login failure is reformatted into the user-facing
message exactly when the error body parses into the structured shape
with title and detail fields; when the parse fails, the surfaced error is
the parse error from the reformatting attempt, not the raw auth
failure. -/
theorem login_error_formatting (err : String)
    (parse : String → Except String LoginHippoError) :
    (∀ e, parse err = Except.ok e →
      loginToken (Except.error err) parse =
        Except.error ("Problem logging into Hippo: " ++
          (if strEndsWith e.detail ": " then strReplace e.detail ": " "."
           else e.detail))) ∧
    (∀ m, parse err = Except.error m →
      loginToken (Except.error err) parse = Except.error m) := by
  constructor
  · intro e he
    simp only [loginToken, format_login_error, he]
    by_cases hd : strEndsWith e.detail ": " = true
    · simp [hd]
    · simp [hd]
  · intro m hm
    simp only [loginToken, format_login_error, hm]

/-- C8 witness: applying the formatting theorem at a concrete parsed
body whose detail ends in the separator. -/
theorem login_error_formatting_witness :
    loginToken (Except.error "401 body")
      (fun _ => Except.ok ⟨"Unauthorized", "Username or password is invalid: "⟩) =
      Except.error "Problem logging into Hippo: Username or password is invalid." :=
  ((login_error_formatting "401 body"
      (fun _ => Except.ok ⟨"Unauthorized", "Username or password is invalid: "⟩)).1
    ⟨"Unauthorized", "Username or password is invalid: "⟩ rfl).trans (by decide)

/-- C1 counterexample: with the app lookup failing with a transport
error (not an app-not-found outcome) and the remaining control-plane
calls succeeding, the run takes the create path and ends in success, so
the lookup failure is neither fatal nor propagated to the caller. -/
theorem lookup_transport_error_counterexample :
    envTransportFail.list_apps = Except.error "error sending request for url" ∧
    (runReconcile envTransportFail "myapp" "1.0.0").2 =
      Except.ok ⟨⟨"a9"⟩, ⟨"c2"⟩, "myapp.example.com"⟩ ∧
    HippoCall.addApp "myapp" "myapp" ∈ (runReconcile envTransportFail "myapp" "1.0.0").1 := by
  refine ⟨rfl, rfl, ?_⟩
  decide

/-- C1 as amended: any failure of the app lookup, whether app-not-found
or a transport or listing error, is treated as the branch signal: the
run proceeds on the create path (the calls issued start with the app
listing followed by app creation) and never registers a revision; no
lookup failure is propagated by the branch itself. -/
theorem lookup_failure_takes_create_path (env : HippoEnv) (name version : String)
    (h : ∃ e, get_app_id env.list_apps name = Except.error e) :
    (runReconcile env name version).1.take 2 =
      [HippoCall.listApps, HippoCall.addApp name name] ∧
    ∀ a v, HippoCall.addRevision a v ∉ (runReconcile env name version).1 := by
  obtain ⟨e, he⟩ := h
  unfold runReconcile
  rw [he]
  cases hadd : env.add_app with
  | error e2 => simp
  | ok app_id =>
    unfold finishChannel
    cases hch : env.add_channel with
    | error e3 => simp
    | ok channel_id =>
      cases hget : env.get_channel_by_id with
      | error e4 => simp
      | ok channel => simp

/-- C1 witness: the amended branch behaviour at the concrete
transport-failure environment. -/
theorem lookup_failure_takes_create_path_witness :
    (∃ e, get_app_id envTransportFail.list_apps "myapp" = Except.error e) ∧
    ((runReconcile envTransportFail "myapp" "1.0.0").1.take 2 =
      [HippoCall.listApps, HippoCall.addApp "myapp" "myapp"] ∧
    ∀ a v, HippoCall.addRevision a v ∉ (runReconcile envTransportFail "myapp" "1.0.0").1) :=
  ⟨⟨"error sending request for url", rfl⟩,
    lookup_failure_takes_create_path envTransportFail "myapp" "1.0.0"
      ⟨"error sending request for url", rfl⟩⟩

/-- C3: when the app name is found among existing apps, the reconciler
performs exactly one revision registration at the bindle version, one
lookup and delete of the existing spin-deploy channel, one lookup of the
revision id by version string, and one channel creation pinned to that
revision id with strategy use-specified-revision and no range rule. -/
theorem update_path_trace (env : HippoEnv) (name version : String)
    (app_id existing_channel_id rid channel_id : Uuid) (ch : Channel)
    (h1 : get_app_id env.list_apps name = Except.ok app_id)
    (h2 : env.add_revision = Except.ok ())
    (h3 : get_channel_id env.list_channels SPIN_DEPLOY_CHANNEL_NAME =
      Except.ok existing_channel_id)
    (h4 : env.remove_channel = Except.ok ())
    (h5 : get_revision_id env.list_revisions version = Except.ok rid)
    (h6 : env.add_channel = Except.ok channel_id)
    (h7 : env.get_channel_by_id = Except.ok ch) :
    runReconcile env name version =
      ([HippoCall.listApps, HippoCall.addRevision name version,
        HippoCall.listChannels, HippoCall.removeChannel existing_channel_id,
        HippoCall.listRevisions,
        HippoCall.addChannel app_id SPIN_DEPLOY_CHANNEL_NAME none
          ChannelRevisionSelectionStrategy.UseSpecifiedRevision none (some rid) none,
        HippoCall.getChannelById channel_id],
       Except.ok ⟨app_id, channel_id, ch.domain⟩) := by
  unfold runReconcile finishChannel
  rw [h1, h2, h3, h4, h5, h6, h7]
  simp

/-- C3 witness: the update-path trace at a concrete environment. -/
theorem update_path_trace_witness :
    get_app_id (Except.ok [⟨"myapp", ⟨"a1"⟩⟩]) "myapp" = Except.ok ⟨"a1"⟩ ∧
    runReconcile
      { list_apps := Except.ok [⟨"myapp", ⟨"a1"⟩⟩]
      , add_revision := Except.ok ()
      , list_channels := Except.ok [⟨"spin-deploy", ⟨"c1"⟩⟩]
      , remove_channel := Except.ok ()
      , list_revisions := Except.ok [⟨⟨"r1"⟩, "1.0.0+qabc", ⟨"a1"⟩⟩]
      , add_app := Except.error "unreached"
      , add_channel := Except.ok ⟨"c2"⟩
      , get_channel_by_id := Except.ok ⟨"myapp.example.com"⟩ } "myapp" "1.0.0+qabc" =
      ([HippoCall.listApps, HippoCall.addRevision "myapp" "1.0.0+qabc",
        HippoCall.listChannels, HippoCall.removeChannel ⟨"c1"⟩,
        HippoCall.listRevisions,
        HippoCall.addChannel ⟨"a1"⟩ SPIN_DEPLOY_CHANNEL_NAME none
          ChannelRevisionSelectionStrategy.UseSpecifiedRevision none (some ⟨"r1"⟩) none,
        HippoCall.getChannelById ⟨"c2"⟩],
       Except.ok ⟨⟨"a1"⟩, ⟨"c2"⟩, "myapp.example.com"⟩) :=
  ⟨by decide,
    update_path_trace _ "myapp" "1.0.0+qabc" ⟨"a1"⟩ ⟨"c1"⟩ ⟨"r1"⟩ ⟨"c2"⟩
      ⟨"myapp.example.com"⟩ (by decide) rfl (by decide) rfl (by decide) rfl rfl⟩

/-- C4: when the app name is not found among existing apps, the
reconciler creates exactly one app named equal to the bindle name and
one spin-deploy channel with strategy use-range-rule whose range rule is
the exact bindle version string, and performs no revision lookup. -/
theorem create_path_trace (env : HippoEnv) (name version : String)
    (apps : List AppItem) (app_id channel_id : Uuid) (ch : Channel)
    (h1 : env.list_apps = Except.ok apps)
    (h2 : apps.find? (fun x => x.name == name) = none)
    (h3 : env.add_app = Except.ok app_id)
    (h4 : env.add_channel = Except.ok channel_id)
    (h5 : env.get_channel_by_id = Except.ok ch) :
    runReconcile env name version =
      ([HippoCall.listApps, HippoCall.addApp name name,
        HippoCall.addChannel app_id SPIN_DEPLOY_CHANNEL_NAME none
          ChannelRevisionSelectionStrategy.UseRangeRule (some version) none none,
        HippoCall.getChannelById channel_id],
       Except.ok ⟨app_id, channel_id, ch.domain⟩) ∧
    HippoCall.listRevisions ∉ (runReconcile env name version).1 := by
  have hg : get_app_id env.list_apps name =
      Except.error ("No app with name: " ++ name) := by
    rw [h1]
    simp [get_app_id, h2]
  have ht : runReconcile env name version =
      ([HippoCall.listApps, HippoCall.addApp name name,
        HippoCall.addChannel app_id SPIN_DEPLOY_CHANNEL_NAME none
          ChannelRevisionSelectionStrategy.UseRangeRule (some version) none none,
        HippoCall.getChannelById channel_id],
       Except.ok ⟨app_id, channel_id, ch.domain⟩) := by
    unfold runReconcile finishChannel
    rw [hg, h3, h4, h5]
    simp
  refine ⟨ht, ?_⟩
  rw [ht]
  simp

/-- C4 witness: the create-path trace at a concrete environment in which
no app carries the deployed name. -/
theorem create_path_trace_witness :
    (([⟨"otherapp", ⟨"a0"⟩⟩] : List AppItem).find? (fun x => x.name == "myapp") = none) ∧
    runReconcile
      { list_apps := Except.ok [⟨"otherapp", ⟨"a0"⟩⟩]
      , add_revision := Except.error "unreached"
      , list_channels := Except.error "unreached"
      , remove_channel := Except.error "unreached"
      , list_revisions := Except.error "unreached"
      , add_app := Except.ok ⟨"a1"⟩
      , add_channel := Except.ok ⟨"c1"⟩
      , get_channel_by_id := Except.ok ⟨"myapp.example.com"⟩ } "myapp" "1.0.0+qabc" =
      ([HippoCall.listApps, HippoCall.addApp "myapp" "myapp",
        HippoCall.addChannel ⟨"a1"⟩ SPIN_DEPLOY_CHANNEL_NAME none
          ChannelRevisionSelectionStrategy.UseRangeRule (some "1.0.0+qabc") none none,
        HippoCall.getChannelById ⟨"c1"⟩],
       Except.ok ⟨⟨"a1"⟩, ⟨"c1"⟩, "myapp.example.com"⟩) :=
  ⟨by decide,
    (create_path_trace _ "myapp" "1.0.0+qabc" [⟨"otherapp", ⟨"a0"⟩⟩] ⟨"a1"⟩ ⟨"c1"⟩
      ⟨"myapp.example.com"⟩ rfl (by decide) rfl rfl rfl).1⟩

/-! Lemmas about the build identifier string. -/

theorem hexDigitChar_mem (n : Nat) : hexDigitChar n ∈ hexChars := by
  unfold hexDigitChar
  have h : n % 16 < 16 := Nat.mod_lt _ (by omega)
  generalize n % 16 = m at h ⊢
  interval_cases m <;> decide

theorem hexCharList_mem (bs : List Nat) (c : Char) (hc : c ∈ hexCharList bs) :
    c ∈ hexChars := by
  unfold hexCharList at hc
  simp only [List.mem_flatten, List.mem_map] at hc
  obtain ⟨l, ⟨b, _, hb⟩, hcl⟩ := hc
  subst hb
  rcases List.mem_cons.mp hcl with h | h
  · subst h; exact hexDigitChar_mem _
  · rcases List.mem_cons.mp h with h2 | h2
    · subst h2; exact hexDigitChar_mem _
    · cases h2

theorem hexChar_is_metadata_char (c : Char) (h : c ∈ hexChars) :
    isBuildMetadataChar c = true ∧ c ≠ '.' := by
  have hall : hexChars.all (fun x => isBuildMetadataChar x && !(x == '.')) = true := by
    decide
  have hc := List.all_eq_true.mp hall c h
  simp only [Bool.and_eq_true] at hc
  refine ⟨hc.1, ?_⟩
  intro he
  rw [he] at hc
  simp at hc

theorem splitDots_no_dot (cs : List Char) (h : ∀ c ∈ cs, c ≠ '.') :
    splitDots cs = [cs] := by
  induction cs with
  | nil => rfl
  | cons c rest ih =>
    have h1 : (c == '.') = false :=
      beq_eq_false_iff_ne.mpr (h c (List.mem_cons_self _ _))
    have h2 := ih (fun x hx => h x (List.mem_cons_of_mem _ hx))
    simp [splitDots, h1, h2]

theorem finalDigest_chars (d : List Nat) (c : Char)
    (hc : c ∈ ('q' :: hexCharList d).take 8) :
    isBuildMetadataChar c = true ∧ c ≠ '.' := by
  have hc2 : c ∈ 'q' :: hexCharList d := List.take_subset _ _ hc
  rcases List.mem_cons.mp hc2 with h | h
  · subst h; exact ⟨by decide, by decide⟩
  · exact hexChar_is_metadata_char c (hexCharList_mem d c h)

theorem validBuildMetadata_finalDigest (d : List Nat) :
    validBuildMetadata (finalDigestString d) = true := by
  unfold validBuildMetadata finalDigestString
  rw [show (String.mk (('q' :: hexCharList d).take 8)).toList =
    ('q' :: hexCharList d).take 8 from rfl]
  rw [splitDots_no_dot _ (fun c hc => (finalDigest_chars d c hc).2)]
  simp only [List.all_cons, List.all_nil, Bool.and_true, Bool.and_eq_true]
  constructor
  · rfl
  · rw [List.all_eq_true]
    exact fun c hc => (finalDigest_chars d c hc).1

theorem hexCharList_length (bs : List Nat) :
    (hexCharList bs).length = 2 * bs.length := by
  induction bs with
  | nil => rfl
  | cons b rest ih =>
    simp only [hexCharList, List.map_cons, List.flatten_cons, List.length_append,
      List.length_cons, List.length_nil] at ih ⊢
    omega

theorem finalDigest_length (d : List Nat) (h : d.length = 32) :
    (finalDigestString d).length = 8 := by
  unfold finalDigestString
  rw [show (String.mk (('q' :: hexCharList d).take 8)).length =
    (('q' :: hexCharList d).take 8).length from rfl]
  rw [List.length_take, List.length_cons, hexCharList_length, h]
  decide

theorem finalDigest_head (d : List Nat) :
    (finalDigestString d).toList.head? = some 'q' := rfl

/-- C5 counterexample: at a concrete manifest and digest function the
computed identifier is q0000000, which has 7 characters after the q
prefix, not 8 as the claim states. -/
theorem buildinfo_length_counterexample :
    compute_buildinfo (fun _ => List.replicate 32 0) "/app/spin.toml" "/app"
      [("/app/spin.toml", [1, 2, 3])]
      { trigger := ApplicationTrigger.other, components := [] } =
      Except.ok "q0000000" ∧
    "q0000000".length - 1 = 7 ∧ ¬ "q0000000".length - 1 = 8 := by
  refine ⟨by decide, by decide, by decide⟩

/-- C5 as amended: whenever the digest input resolves, the computed
identifier is the hex-encoded sha256 digest prefixed with the fixed
alphabetic marker q and truncated to 8 characters in total, 7 remaining
after the prefix, and it always validates as semver build metadata, so
the fatal validation-failure branch is never taken. -/
theorem buildinfo_shape (sha256 : List Nat → List Nat)
    (appPath app_folder : String) (fs : FileSystem) (cfg : RawAppManifest)
    (inp : List Nat)
    (h32 : (sha256 inp).length = 32)
    (hin : hashInput appPath app_folder fs cfg = Except.ok inp) :
    compute_buildinfo sha256 appPath app_folder fs cfg =
      Except.ok (finalDigestString (sha256 inp)) ∧
    (finalDigestString (sha256 inp)).length = 8 ∧
    (finalDigestString (sha256 inp)).toList.head? = some 'q' ∧
    validBuildMetadata (finalDigestString (sha256 inp)) = true := by
  refine ⟨?_, finalDigest_length _ h32, finalDigest_head _,
    validBuildMetadata_finalDigest _⟩
  unfold compute_buildinfo
  rw [hin]
  simp [buildMetadataNew, validBuildMetadata_finalDigest]

/-- C5 witness: the identifier shape at a concrete manifest and digest
function. -/
theorem buildinfo_shape_witness :
    (hashInput "/app/spin.toml" "/app" [("/app/spin.toml", [1, 2, 3])]
      { trigger := ApplicationTrigger.other, components := [] } =
      Except.ok [1, 2, 3]) ∧
    (compute_buildinfo (fun _ => List.replicate 32 0) "/app/spin.toml" "/app"
      [("/app/spin.toml", [1, 2, 3])]
      { trigger := ApplicationTrigger.other, components := [] } =
      Except.ok (finalDigestString (List.replicate 32 0)) ∧
    (finalDigestString (List.replicate 32 0)).length = 8 ∧
    (finalDigestString (List.replicate 32 0)).toList.head? = some 'q' ∧
    validBuildMetadata (finalDigestString (List.replicate 32 0)) = true) :=
  ⟨by decide,
    buildinfo_shape (fun _ => List.replicate 32 0) "/app/spin.toml" "/app"
      [("/app/spin.toml", [1, 2, 3])]
      { trigger := ApplicationTrigger.other, components := [] } [1, 2, 3]
      (by decide) (by decide)⟩

/-! Lemmas for the determinism of the digest input under filesystem
iteration-order changes. -/

theorem fsLookup_perm_eq (fs1 fs2 : FileSystem) (path : String)
    (hp : fs1.Perm fs2) (hn : PathsNodup fs1) :
    fsLookup fs1 path = fsLookup fs2 path := by
  have hn2 : fs1.Pairwise (fun a b => a.1 ≠ b.1) := hn
  unfold fsLookup
  cases hf1 : fs1.find? (fun e => e.1 == path) with
  | none =>
    have hnone : fs2.find? (fun e => e.1 == path) = none := by
      rw [List.find?_eq_none] at hf1 ⊢
      exact fun x hx => hf1 x (hp.mem_iff.mpr hx)
    rw [hnone]
  | some e =>
    cases hf2 : fs2.find? (fun e => e.1 == path) with
    | none =>
      exfalso
      rw [List.find?_eq_none] at hf2
      have h0 : (e.1 == path) = true := by
        have h1 := List.find?_some hf1
        simpa using h1
      exact hf2 e (hp.mem_iff.mp (List.mem_of_find?_eq_some hf1)) h0
    | some e2 =>
      have he : e ∈ fs1 := List.mem_of_find?_eq_some hf1
      have he2 : e2 ∈ fs1 := hp.mem_iff.mpr (List.mem_of_find?_eq_some hf2)
      have hpe : e.1 = path := by
        have h0 := List.find?_some hf1
        simp only [beq_iff_eq] at h0
        exact h0
      have hpe2 : e2.1 = path := by
        have h0 := List.find?_some hf2
        simp only [beq_iff_eq] at h0
        exact h0
      have heq : e = e2 := by
        by_contra hne
        exact List.Pairwise.forall (fun a b h => Ne.symm h) hn2 he he2 hne
          (hpe.trans hpe2.symm)
      rw [heq]

theorem insertionSort_pairwise_lt (l : List (String × List Nat))
    (hn : l.Pairwise (fun a b => a.1 ≠ b.1)) :
    List.Sorted pathLt (List.insertionSort pathLe l) := by
  have hperm : (List.insertionSort pathLe l).Perm l :=
    List.perm_insertionSort pathLe l
  have hs : List.Sorted pathLe (List.insertionSort pathLe l) :=
    List.sorted_insertionSort pathLe l
  have hn2 : (List.insertionSort pathLe l).Pairwise (fun a b => a.1 ≠ b.1) :=
    (List.Perm.pairwise_iff (fun h => Ne.symm h) hperm).mpr hn
  exact (List.Pairwise.and hs hn2).imp (fun h => lt_of_le_of_ne h.1 h.2)

theorem collect_perm_eq (files ex : List String) (dir : String)
    (fs1 fs2 : FileSystem) (hp : fs1.Perm fs2) (hn : PathsNodup fs1) :
    collect files ex dir fs1 = collect files ex dir fs2 := by
  have hn0 : fs1.Pairwise (fun a b => a.1 ≠ b.1) := hn
  unfold collect
  have hpf := hp.filter
    (fun e => matchesAny files dir e.1 && !matchesAny ex dir e.1)
  have hn1 : (fs1.filter
      (fun e => matchesAny files dir e.1 && !matchesAny ex dir e.1)).Pairwise
      (fun a b => a.1 ≠ b.1) :=
    List.Pairwise.sublist (List.filter_sublist fs1) hn0
  have hn2 : (fs2.filter
      (fun e => matchesAny files dir e.1 && !matchesAny ex dir e.1)).Pairwise
      (fun a b => a.1 ≠ b.1) :=
    (List.Perm.pairwise_iff (fun h => Ne.symm h) hpf).mp hn1
  exact List.eq_of_perm_of_sorted
    (((List.perm_insertionSort pathLe _).trans hpf).trans
      (List.perm_insertionSort pathLe _).symm)
    (insertionSort_pairwise_lt _ hn1) (insertionSort_pairwise_lt _ hn2)

theorem componentInput_perm_eq (app_folder : String) (fs1 fs2 : FileSystem)
    (x : RawComponentManifest) (hp : fs1.Perm fs2) (hn : PathsNodup fs1) :
    componentInput app_folder fs1 x = componentInput app_folder fs2 x := by
  have hl : ∀ path, fsLookup fs1 path = fsLookup fs2 path :=
    fun path => fsLookup_perm_eq fs1 fs2 path hp hn
  have hc : ∀ files ex dir, collect files ex dir fs1 = collect files ex dir fs2 :=
    fun files ex dir => collect_perm_eq files ex dir fs1 fs2 hp hn
  unfold componentInput
  simp only [hl, hc]

theorem componentsInput_perm_eq (app_folder : String) (fs1 fs2 : FileSystem)
    (comps : List RawComponentManifest) (hp : fs1.Perm fs2)
    (hn : PathsNodup fs1) :
    componentsInput app_folder fs1 comps = componentsInput app_folder fs2 comps := by
  induction comps with
  | nil => rfl
  | cons x rest ih =>
    unfold componentsInput
    rw [componentInput_perm_eq app_folder fs1 fs2 x hp hn, ih]

theorem hashInput_perm_eq (appPath app_folder : String) (fs1 fs2 : FileSystem)
    (cfg : RawAppManifest) (hp : fs1.Perm fs2) (hn : PathsNodup fs1) :
    hashInput appPath app_folder fs1 cfg = hashInput appPath app_folder fs2 cfg := by
  unfold hashInput
  rw [componentsInput_perm_eq app_folder fs1 fs2 cfg.components hp hn,
    fsLookup_perm_eq fs1 fs2 appPath hp hn]

/-- C6: for any two filesystem states presenting the same files with the
same contents in different iteration orders, the computed build
identifier is identical; a remote bindle source with no asset globs
contributes nothing to the digest input; and the digest input is the
concatenated component contributions followed by the manifest bytes
last. -/
theorem buildinfo_deterministic (sha256 : List Nat → List Nat)
    (appPath app_folder : String) (fs1 fs2 : FileSystem) (cfg : RawAppManifest)
    (hp : fs1.Perm fs2) (hn : PathsNodup fs1) :
    compute_buildinfo sha256 appPath app_folder fs1 cfg =
      compute_buildinfo sha256 appPath app_folder fs2 cfg ∧
    (∀ cid b trig desc,
      componentInput app_folder fs1
        { id := cid, source := RawModuleSource.bindle b
        , wasm := { files := none, exclude_files := none }
        , trigger := trig, description := desc } = Except.ok []) ∧
    (∀ comp manifestBytes,
      componentsInput app_folder fs1 cfg.components = Except.ok comp →
      fsLookup fs1 appPath = some manifestBytes →
      hashInput appPath app_folder fs1 cfg = Except.ok (comp ++ manifestBytes)) := by
  refine ⟨?_, ?_, ?_⟩
  · unfold compute_buildinfo
    rw [hashInput_perm_eq appPath app_folder fs1 fs2 cfg hp hn]
  · intro cid b trig desc
    rfl
  · intro comp manifestBytes h1 h2
    unfold hashInput
    rw [h1, h2]

/-- C6 witness: two iteration orders of the same two files yield the
same identifier for a manifest with one file-reference component. -/
theorem buildinfo_deterministic_witness :
    ([("/app/a.wasm", [7]), ("/app/spin.toml", [1, 2])] : FileSystem).Perm
      [("/app/spin.toml", [1, 2]), ("/app/a.wasm", [7])] ∧
    compute_buildinfo (fun inp => inp ++ List.replicate 29 0) "/app/spin.toml" "/app"
      [("/app/a.wasm", [7]), ("/app/spin.toml", [1, 2])]
      { trigger := ApplicationTrigger.other
      , components := [{ id := "c1", source := RawModuleSource.fileReference "a.wasm"
                       , wasm := { files := none, exclude_files := none }
                       , trigger := TriggerConfig.other, description := none }] } =
      compute_buildinfo (fun inp => inp ++ List.replicate 29 0) "/app/spin.toml" "/app"
        [("/app/spin.toml", [1, 2]), ("/app/a.wasm", [7])]
        { trigger := ApplicationTrigger.other
        , components := [{ id := "c1", source := RawModuleSource.fileReference "a.wasm"
                         , wasm := { files := none, exclude_files := none }
                         , trigger := TriggerConfig.other, description := none }] } :=
  ⟨by decide,
    (buildinfo_deterministic (fun inp => inp ++ List.replicate 29 0) "/app/spin.toml"
      "/app" [("/app/a.wasm", [7]), ("/app/spin.toml", [1, 2])]
      [("/app/spin.toml", [1, 2]), ("/app/a.wasm", [7])]
      { trigger := ApplicationTrigger.other
      , components := [{ id := "c1", source := RawModuleSource.fileReference "a.wasm"
                       , wasm := { files := none, exclude_files := none }
                       , trigger := TriggerConfig.other, description := none }] }
      (by decide) (by decide)).1⟩

/-- C7 counterexample: a manifest whose application trigger is http but
whose single component is not http-triggered prints the Available Routes
header with no route lines, not the single bare-domain fallback line, so
the fallback is governed by the application-level trigger, not by the
absence of http-triggered components. -/
theorem route_fallback_counterexample :
    cfgNonHttpComponent.components ≠ [] ∧
    (∀ c ∈ cfgNonHttpComponent.components, ∀ r, c.trigger ≠ TriggerConfig.http r) ∧
    deployOutputLines "myapp" "1.0.0" "myapp.example.com" "https://hippo.example.com"
      cfgNonHttpComponent =
      ["Deployed myapp version 1.0.0", "Available Routes:"] ∧
    deployOutputLines "myapp" "1.0.0" "myapp.example.com" "https://hippo.example.com"
      cfgNonHttpComponent ≠
      ["Deployed myapp version 1.0.0",
       "Application is running at myapp.example.com"] := by
  refine ⟨by decide, ?_, rfl, by decide⟩
  intro c hcm r
  fin_cases hcm
  simp

/-- C7 as amended: the route presenter prints nothing when the manifest
has zero components; a component with an http trigger route /foo under
base /api yields a line containing scheme://domain/api/foo; and the
single bare-domain fallback line is printed exactly when the
application-level trigger is not http-typed, while an http-typed
application trigger with components none of which are http-triggered
prints only the routes header. -/
theorem route_presentation (domain hippo_url name version : String)
    (cfg : RawAppManifest) :
    (∀ base, cfg.components = [] →
      print_available_routes domain base hippo_url cfg = []) ∧
    (∀ scheme c, urlScheme hippo_url = some scheme → c ∈ cfg.components →
      c.trigger = TriggerConfig.http "/foo" →
      ∃ line ∈ print_available_routes domain "/api" hippo_url cfg,
        hasSubstring line (scheme ++ "://" ++ domain ++ "/api/foo") = true) ∧
    (cfg.trigger = ApplicationTrigger.other →
      deployOutputLines name version domain hippo_url cfg =
        ["Deployed " ++ name ++ " version " ++ version,
         "Application is running at " ++ domain]) ∧
    (∀ b, cfg.trigger = ApplicationTrigger.http b → cfg.components ≠ [] →
      (∀ c ∈ cfg.components, ∀ r, c.trigger ≠ TriggerConfig.http r) →
      deployOutputLines name version domain hippo_url cfg =
        ["Deployed " ++ name ++ " version " ++ version, "Available Routes:"]) := by
  refine ⟨?_, ?_, ?_, ?_⟩
  · intro base hc
    simp [print_available_routes, hc]
  · intro scheme c hs hc htrig
    have hne : cfg.components.isEmpty = false := by
      cases hcomp : cfg.components with
      | nil => rw [hcomp] at hc; cases hc
      | cons x rest => rfl
    have hroute : routePatternFrom "/api" "/foo" = "/api/foo" := by decide
    refine ⟨"  " ++ c.id ++ ": " ++ scheme ++ "://" ++ domain ++ "/api/foo", ?_, ?_⟩
    · unfold print_available_routes
      rw [hne]
      simp only [Bool.false_eq_true, if_false, List.mem_cons]
      right
      rw [List.mem_flatten]
      refine ⟨routeLines domain "/api" hippo_url c, List.mem_map_of_mem _ hc, ?_⟩
      simp only [routeLines, htrig, hs, Option.getD_some, hroute]
      exact List.mem_cons_self _ _
    · rw [show "  " ++ c.id ++ ": " ++ scheme ++ "://" ++ domain ++ "/api/foo" =
        ("  " ++ c.id ++ ": ") ++ (scheme ++ ("://" ++ (domain ++ "/api/foo"))) by
          simp [String.append_assoc]]
      rw [show scheme ++ "://" ++ domain ++ "/api/foo" =
        scheme ++ ("://" ++ (domain ++ "/api/foo")) by simp [String.append_assoc]]
      exact hasSubstring_append_self _ _
  · intro ht
    unfold deployOutputLines
    rw [ht]
  · intro b ht hne hnone
    unfold deployOutputLines
    rw [ht]
    have hc : cfg.components.isEmpty = false := by
      cases hcomp : cfg.components with
      | nil => exact absurd hcomp hne
      | cons x rest => rfl
    unfold print_available_routes
    rw [hc]
    simp only [Bool.false_eq_true, if_false, List.cons.injEq, true_and]
    have hall : ∀ c ∈ cfg.components, routeLines domain b hippo_url c = [] := by
      intro c hcm
      unfold routeLines
      cases hct : c.trigger with
      | http r => exact absurd hct (hnone c hcm r)
      | other => rfl
    have : (cfg.components.map (routeLines domain b hippo_url)).flatten = [] := by
      rw [List.flatten_eq_nil_iff]
      intro l hl
      rw [List.mem_map] at hl
      obtain ⟨c, hcm, hcl⟩ := hl
      rw [← hcl]
      exact hall c hcm
    rw [this]

/-- C7 witness: the presenter behaviour at concrete manifests covering
the empty, http-component and non-http application trigger cases. -/
theorem route_presentation_witness :
    (urlScheme "https://hippo.example.com" = some "https") ∧
    (({ trigger := ApplicationTrigger.http "/api"
      , components := [{ id := "c1", source := RawModuleSource.bindle "b"
                       , wasm := { files := none, exclude_files := none }
                       , trigger := TriggerConfig.http "/foo"
                       , description := none }] } : RawAppManifest).components ≠ []) ∧
    (∃ line ∈ print_available_routes "myapp.example.com" "/api" "https://hippo.example.com"
        { trigger := ApplicationTrigger.http "/api"
        , components := [{ id := "c1", source := RawModuleSource.bindle "b"
                         , wasm := { files := none, exclude_files := none }
                         , trigger := TriggerConfig.http "/foo"
                         , description := none }] },
      hasSubstring line ("https" ++ "://" ++ "myapp.example.com" ++ "/api/foo") = true) :=
  ⟨by decide, by decide,
    (route_presentation "myapp.example.com" "https://hippo.example.com" "myapp" "1.0.0"
      { trigger := ApplicationTrigger.http "/api"
      , components := [{ id := "c1", source := RawModuleSource.bindle "b"
                       , wasm := { files := none, exclude_files := none }
                       , trigger := TriggerConfig.http "/foo"
                       , description := none }] }).2.1 "https"
      { id := "c1", source := RawModuleSource.bindle "b"
      , wasm := { files := none, exclude_files := none }
      , trigger := TriggerConfig.http "/foo", description := none }
      (by decide) (List.mem_cons_self _ _) rfl⟩

end SpinDeploy
